import Mathlib

/-!
# The named-variable bridge of `script/variable.go`

A shallow embedding of `script.Variable` (constructor and accessors) together
with the collaborators it consumes from package `objects` and from the
conversion helpers of package `script`.

Conventions of the embedding:

* a Go slice is `Option (List α)`: `none` is the `nil` slice, `some xs` a
  non-nil slice with elements `xs`;
* a Go `map[string]T` is `Option (List (String × T))`: `none` is the `nil`
  map, `some es` a non-nil map with entries `es` (keys pairwise distinct);
* a Go result `(value, ok)` is a pair `T × Bool`;
* a Go result `(value, error)` is `Except`;
* a Go `error` is `Option GoError`, `none` being `nil`;
* `int`, `int64` and `rune` values are integers, bytes are naturals; no
  accessor does arithmetic on them;
* a `float64` is its IEEE-754 bit pattern; no accessor does arithmetic on it,
  and equality of two model values is identity of representation.
-/

set_option autoImplicit false

namespace Tengo

/-! ## Host-side scalar types -/

abbrev GoInt := Int
abbrev GoInt64 := Int
abbrev GoRune := Int
abbrev GoBool := Bool
abbrev GoString := String
abbrev GoByte := Nat

/-- A `float64`, held as its IEEE-754 binary64 bit pattern. -/
structure Float64 where
  bits : Nat
  deriving DecidableEq, Repr

/-- The zero value `0.0` of `float64`. -/
def Float64.zero : Float64 := ⟨0⟩

/-- A Go slice: `none` is `nil`. -/
abbrev Slice (α : Type) := Option (List α)

/-- Go `len(s)`. -/
def Slice.len {α : Type} (s : Slice α) : Nat := (s.getD []).length

/-- The elements of a slice in order (`nil` has none). -/
def Slice.elems {α : Type} (s : Slice α) : List α := s.getD []

/-- Go `append(s, x)`: the result is never `nil`. -/
def Slice.append {α : Type} (s : Slice α) (x : α) : Slice α := some (s.getD [] ++ [x])

/-- The entries of a Go `map[string]T`; keys are pairwise distinct. -/
abbrev Entries (α : Type) := List (GoString × α)

/-- The keys of a list of entries. -/
def Entries.keys {α : Type} (es : Entries α) : List GoString := es.map Prod.fst

/-- Go `m[k]` with presence: the value stored under `k`, if any. -/
def Entries.get {α : Type} : Entries α → GoString → Option α
  | [], _ => none
  | (k, x) :: es, q => if q = k then some x else Entries.get es q

/-- Go `m[k] = x`: overwrite the entry of `k`, or add one. -/
def Entries.set {α : Type} : Entries α → GoString → α → Entries α
  | [], k, x => [(k, x)]
  | (k0, x0) :: es, k, x => if k = k0 then (k0, x) :: es else (k0, x0) :: Entries.set es k x

/-- A Go `map[string]T`: `none` is the `nil` map. -/
abbrev GoMap (α : Type) := Option (Entries α)

/-- A Go `error` value built by `errors.New(text)`; `Error()` gives `text` back. -/
structure GoError where
  text : GoString
  deriving DecidableEq, Repr

/-- Go `errors.New`. -/
def errors_New (text : GoString) : GoError := ⟨text⟩

/-! ## The internal value (package `objects`) -/

/-- Modelled from the spec: the variants of `objects.Object` (package `objects`
is not among the sources). Integer, Float, Boolean, Char, String, Bytes, Array
(ordered sequence of internal values), Map (string-keyed mapping of internal
values), Error (carries a display message, which its `String()` method
returns), Undefined (no payload), and `Other` for the variants the runtime
defines besides these, known to this layer only by their type tag. -/
inductive Object where
  | Int (value : GoInt64)
  | Float (value : Float64)
  | Bool (value : GoBool)
  | Char (value : GoRune)
  | String (value : GoString)
  | Bytes (value : Slice GoByte)
  | Array (value : List Object)
  | Map (value : List (GoString × Object))
  | Error (message : GoString)
  | Undefined
  | Other (typeName : GoString)

/-- Type switch `case *objects.Int`. -/
def Object.isInt : Object → GoBool
  | .Int _ => true
  | _ => false

/-- Type switch `case *objects.Float`. -/
def Object.isFloat : Object → GoBool
  | .Float _ => true
  | _ => false

/-- Type switch `case *objects.Bool`. -/
def Object.isBool : Object → GoBool
  | .Bool _ => true
  | _ => false

/-- Type switch `case *objects.Char`. -/
def Object.isChar : Object → GoBool
  | .Char _ => true
  | _ => false

/-- Type switch `case *objects.String`. -/
def Object.isString : Object → GoBool
  | .String _ => true
  | _ => false

/-- Type switch `case *objects.Bytes`. -/
def Object.isBytes : Object → GoBool
  | .Bytes _ => true
  | _ => false

/-- Type switch `case *objects.Array`. -/
def Object.isArray : Object → GoBool
  | .Array _ => true
  | _ => false

/-- Type switch `case *objects.Map`. -/
def Object.isMap : Object → GoBool
  | .Map _ => true
  | _ => false

/-- Type assertion `.(*objects.Error)`. -/
def Object.isError : Object → GoBool
  | .Error _ => true
  | _ => false

/-- Type assertion `.(*objects.Undefined)`. -/
def Object.isUndefined : Object → GoBool
  | .Undefined => true
  | _ => false

/-- Modelled from the spec: `TypeName()`, the type tag of the variant as a
display name (the methods live in package `objects`, not among the sources).
A runtime-specific variant reports the tag it carries. -/
def Object.TypeName : Object → GoString
  | .Int _ => "int"
  | .Float _ => "float"
  | .Bool _ => "bool"
  | .Char _ => "char"
  | .String _ => "string"
  | .Bytes _ => "bytes"
  | .Array _ => "array"
  | .Map _ => "map"
  | .Error _ => "error"
  | .Undefined => "undefined"
  | .Other typeName => typeName

/-- A runtime-specific variant has a tag of its own: it does not reuse the tag
of the Undefined variant. Holds of every variant this layer names. -/
def Object.ownTag : Object → GoBool
  | .Other typeName => !(typeName == Object.TypeName .Undefined)
  | _ => true

/-- Modelled from the spec: `(*objects.Error).String()`, the display message
the Error variant carries. -/
def Object.errorString : Object → GoString
  | .Error message => message
  | _ => ""

/-! ## The host-generic value and the conversion helpers -/

/-- Modelled from the spec: the host-generic value (Go `interface{}`) in the
shapes the spec names: nil/none, integer, float, boolean, rune, string, byte
sequence, sequence of host-generic values, string-keyed mapping of
host-generic values. `object` holds a value that is already in internal form
(the spec names no host shape for the Error variant and the runtime-specific
variants); `unsupported` is a host value whose shape has no mapping into the
internal representation, such as a function reference. -/
inductive HostValue where
  | nil
  | int (v : GoInt)
  | float (v : Float64)
  | bool (v : GoBool)
  | rune (v : GoRune)
  | string (v : GoString)
  | bytes (v : Slice GoByte)
  | seq (v : List HostValue)
  | map (v : List (GoString × HostValue))
  | object (o : Object)
  | unsupported (shape : GoString)

/-- The host scalars of a convertible type: integer, float, boolean, rune,
string, byte sequence. -/
def HostValue.isScalar : HostValue → GoBool
  | .int _ => true
  | .float _ => true
  | .bool _ => true
  | .rune _ => true
  | .string _ => true
  | .bytes _ => true
  | _ => false

/-- The error of a failed host-to-internal conversion. -/
structure ConversionError where
  shape : GoString
  deriving DecidableEq, Repr

mutual
/-- Modelled from the spec: `interfaceToObject` (script/conversion.go is not
among the sources), the fallible host-to-internal mapping: integers, floats,
booleans, runes, strings, byte sequences, sequences and string-keyed mappings
of convertible values, nil to Undefined; a shape without a mapping, also as an
element of a sequence or mapping, is a `ConversionError`. -/
def interfaceToObject : HostValue → Except ConversionError Object
  | .nil => .ok .Undefined
  | .int v => .ok (.Int v)
  | .float v => .ok (.Float v)
  | .bool v => .ok (.Bool v)
  | .rune v => .ok (.Char v)
  | .string v => .ok (.String v)
  | .bytes v => .ok (.Bytes v)
  | .seq xs =>
    match interfaceToObjectSeq xs with
    | .ok os => .ok (.Array os)
    | .error e => .error e
  | .map es =>
    match interfaceToObjectEntries es with
    | .ok os => .ok (.Map os)
    | .error e => .error e
  | .object o => .ok o
  | .unsupported shape => .error ⟨shape⟩
/-- Element-wise conversion of a host sequence; the first failure wins. -/
def interfaceToObjectSeq : List HostValue → Except ConversionError (List Object)
  | [] => .ok []
  | x :: xs =>
    match interfaceToObject x with
    | .error e => .error e
    | .ok o =>
      match interfaceToObjectSeq xs with
      | .error e => .error e
      | .ok os => .ok (o :: os)
/-- Value-wise conversion of a host mapping; the first failure wins. -/
def interfaceToObjectEntries :
    List (GoString × HostValue) → Except ConversionError (List (GoString × Object))
  | [] => .ok []
  | (k, x) :: es =>
    match interfaceToObject x with
    | .error e => .error e
    | .ok o =>
      match interfaceToObjectEntries es with
      | .error e => .error e
      | .ok os => .ok ((k, o) :: os)
end

mutual
/-- Modelled from the spec: `objectToInterface` (script/conversion.go is not
among the sources), the internal-to-host widening: integer to host integer,
array to a host sequence of widened elements, map to a host mapping of widened
values, undefined to nil, and so on; a variant without a host shape is handed
over as it is. -/
def objectToInterface : Object → HostValue
  | .Int v => .int v
  | .Float v => .float v
  | .Bool v => .bool v
  | .Char v => .rune v
  | .String v => .string v
  | .Bytes v => .bytes v
  | .Array es => .seq (objectToInterfaceSeq es)
  | .Map es => .map (objectToInterfaceEntries es)
  | .Undefined => .nil
  | .Error message => .object (.Error message)
  | .Other typeName => .object (.Other typeName)
/-- Element-wise widening of an internal sequence. -/
def objectToInterfaceSeq : List Object → List HostValue
  | [] => []
  | o :: os => objectToInterface o :: objectToInterfaceSeq os
/-- Value-wise widening of an internal mapping. -/
def objectToInterfaceEntries : List (GoString × Object) → List (GoString × HostValue)
  | [] => []
  | (k, o) :: es => (k, objectToInterface o) :: objectToInterfaceEntries es
end

/-! ## The scalar coercions of package `objects` -/

/-- The coercion functions `objects.ToInt`, `ToInt64`, `ToFloat64`, `ToRune`,
`ToBool`, `ToString`, `ToByteSlice` (package `objects` is not among the
sources), each a Go function returning `(value, ok)`. -/
structure Coercions where
  ToInt : Object → GoInt × GoBool
  ToInt64 : Object → GoInt64 × GoBool
  ToFloat64 : Object → Float64 × GoBool
  ToRune : Object → GoRune × GoBool
  ToBool : Object → GoBool × GoBool
  ToString : Object → GoString × GoBool
  ToByteSlice : Object → Slice GoByte × GoBool

/-- The contract of a `(value, ok)` coercion: a failed coercion leaves the
result at the zero value of its type. -/
def Coercions.ZeroOnFailure (c : Coercions) : Prop :=
  (∀ o, (c.ToInt o).2 = false → (c.ToInt o).1 = 0) ∧
  (∀ o, (c.ToInt64 o).2 = false → (c.ToInt64 o).1 = 0) ∧
  (∀ o, (c.ToFloat64 o).2 = false → (c.ToFloat64 o).1 = Float64.zero) ∧
  (∀ o, (c.ToRune o).2 = false → (c.ToRune o).1 = 0) ∧
  (∀ o, (c.ToBool o).2 = false → (c.ToBool o).1 = false) ∧
  (∀ o, (c.ToString o).2 = false → (c.ToString o).1 = "") ∧
  (∀ o, (c.ToByteSlice o).2 = false → (c.ToByteSlice o).1 = none)

/-- Modelled from the spec: `objects.ToInt`; succeeds on the Integer variant,
any other variant cannot be coerced and yields `(0, false)`. -/
def objects_ToInt : Object → GoInt × GoBool
  | .Int value => (value, true)
  | _ => (0, false)

/-- Modelled from the spec: `objects.ToInt64`; succeeds on the Integer
variant, any other variant yields `(0, false)`. -/
def objects_ToInt64 : Object → GoInt64 × GoBool
  | .Int value => (value, true)
  | _ => (0, false)

/-- Modelled from the spec: `objects.ToFloat64`; succeeds on the Float
variant, any other variant yields `(0.0, false)`. -/
def objects_ToFloat64 : Object → Float64 × GoBool
  | .Float value => (value, true)
  | _ => (Float64.zero, false)

/-- Modelled from the spec: `objects.ToRune`; succeeds on the Char variant,
any other variant yields `(0, false)`. -/
def objects_ToRune : Object → GoRune × GoBool
  | .Char value => (value, true)
  | _ => (0, false)

/-- Modelled from the spec: `objects.ToBool`; succeeds on the Boolean variant,
any other variant yields `(false, false)`. -/
def objects_ToBool : Object → GoBool × GoBool
  | .Bool value => (value, true)
  | _ => (false, false)

/-- Modelled from the spec: `objects.ToString`; succeeds on the String
variant, any other variant yields `("", false)`. -/
def objects_ToString : Object → GoString × GoBool
  | .String value => (value, true)
  | _ => ("", false)

/-- Modelled from the spec: `objects.ToByteSlice`; succeeds on the Bytes
variant, any other variant yields `(nil, false)`. -/
def objects_ToByteSlice : Object → Slice GoByte × GoBool
  | .Bytes value => (value, true)
  | _ => (none, false)

/-- Modelled from the spec: the coercion functions of package `objects`,
each succeeding on the variant of its own shape only. -/
def objects : Coercions :=
  ⟨objects_ToInt, objects_ToInt64, objects_ToFloat64, objects_ToRune, objects_ToBool,
    objects_ToString, objects_ToByteSlice⟩

/-! ## `script.Variable` -/

/-- A `Variable`: a name and the internal value it holds. The Go field `value`
is a pointer to an `objects.Object`; `NewVariable`, the only constructor, sets
it to the address of the converted value, so it is never nil. -/
structure Variable where
  name : GoString
  value : Object

/-- `NewVariable(name, value)`, over the host-to-internal conversion it calls. -/
def NewVariable (interfaceToObject : HostValue → Except ConversionError Object)
    (name : GoString) (value : HostValue) : Except ConversionError Variable :=
  match interfaceToObject value with
  | .error err => .error err
  | .ok obj => .ok { name := name, value := obj }

/-- `(*Variable).Name`. -/
def Variable.Name (v : Variable) : GoString := v.name

/-- `(*Variable).Value`, over the widening it calls. -/
def Variable.Value (objectToInterface : Object → HostValue) (v : Variable) : HostValue :=
  objectToInterface v.value

/-- `(*Variable).ValueType`. -/
def Variable.ValueType (v : Variable) : GoString := v.value.TypeName

/-- `(*Variable).Int`: `c, _ := objects.ToInt(*v.value); return c`. -/
def Variable.Int (c : Coercions) (v : Variable) : GoInt := (c.ToInt v.value).1

/-- `(*Variable).Int64`. -/
def Variable.Int64 (c : Coercions) (v : Variable) : GoInt64 := (c.ToInt64 v.value).1

/-- `(*Variable).Float`. -/
def Variable.Float (c : Coercions) (v : Variable) : Float64 := (c.ToFloat64 v.value).1

/-- `(*Variable).Char`. -/
def Variable.Char (c : Coercions) (v : Variable) : GoRune := (c.ToRune v.value).1

/-- `(*Variable).Bool`. -/
def Variable.Bool (c : Coercions) (v : Variable) : GoBool := (c.ToBool v.value).1

/-- `(*Variable).Array`: on the Array variant, `append` the widening of each
element to a slice that starts `nil`; on any other variant, `nil`. -/
def Variable.Array (objectToInterface : Object → HostValue) (v : Variable) : Slice HostValue :=
  match v.value with
  | .Array value => value.foldl (fun arr e => Slice.append arr (objectToInterface e)) none
  | _ => none

/-- `(*Variable).Map`: on the Map variant, store the widening of each value
under its key in a map made by `make`; on any other variant, the `nil` map. -/
def Variable.Map (objectToInterface : Object → HostValue) (v : Variable) : GoMap HostValue :=
  match v.value with
  | .Map value =>
    some (value.foldl (fun kv e => Entries.set kv e.1 (objectToInterface e.2)) [])
  | _ => none

/-- `(*Variable).String`. -/
def Variable.String (c : Coercions) (v : Variable) : GoString := (c.ToString v.value).1

/-- `(*Variable).Bytes`. -/
def Variable.Bytes (c : Coercions) (v : Variable) : Slice GoByte := (c.ToByteSlice v.value).1

/-- `(*Variable).Error`: on the Error variant, `errors.New(err.String())`;
otherwise `nil`. -/
def Variable.Error (v : Variable) : Option GoError :=
  match v.value with
  | .Error message => some (errors_New (Object.errorString (.Error message)))
  | _ => none

/-- `(*Variable).Object`. -/
def Variable.Object (v : Variable) : Object := v.value

/-- `(*Variable).IsUndefined`. -/
def Variable.IsUndefined (v : Variable) : GoBool := v.value.isUndefined

/-! ## Lemmas on slices and maps -/

theorem foldl_append_elems {α β : Type} (w : α → β) (es : List α) (acc : Slice β) :
    Slice.elems (es.foldl (fun arr e => Slice.append arr (w e)) acc)
      = Slice.elems acc ++ es.map w := by
  induction es generalizing acc with
  | nil => simp
  | cons e es ih =>
    rw [List.foldl_cons, ih]
    simp [Slice.append, Slice.elems]

theorem foldl_append_isSome {α β : Type} (w : α → β) (es : List α) (acc : Slice β) :
    (es.foldl (fun arr e => Slice.append arr (w e)) acc).isSome
      = (acc.isSome || !es.isEmpty) := by
  induction es generalizing acc with
  | nil => simp
  | cons e es ih =>
    rw [List.foldl_cons, ih]
    simp [Slice.append]

theorem Entries.get_set {α : Type} (es : Entries α) (k q : GoString) (x : α) :
    Entries.get (Entries.set es k x) q = if q = k then some x else Entries.get es q := by
  induction es with
  | nil => simp [Entries.set, Entries.get]
  | cons e es ih =>
    obtain ⟨k0, x0⟩ := e
    by_cases hk : k = k0
    · subst hk
      by_cases hq : q = k <;> simp [Entries.set, Entries.get, hq]
    · by_cases hq0 : q = k0
      · subst hq0
        have hqk : ¬ q = k := fun h => hk h.symm
        simp [Entries.set, Entries.get, hk, hqk]
      · simp [Entries.set, Entries.get, hk, hq0, ih]

theorem Entries.get_eq_none {α : Type} (es : Entries α) (q : GoString)
    (h : q ∉ Entries.keys es) : Entries.get es q = none := by
  induction es with
  | nil => rfl
  | cons e es ih =>
    obtain ⟨k0, x0⟩ := e
    simp only [Entries.keys, List.map_cons, List.mem_cons, not_or] at h
    simp only [Entries.get, h.1, if_false]
    exact ih h.2

theorem Entries.mem_keys_iff {α : Type} (es : Entries α) (q : GoString) :
    q ∈ Entries.keys es ↔ (Entries.get es q).isSome = true := by
  induction es with
  | nil => simp [Entries.keys, Entries.get]
  | cons e es ih =>
    obtain ⟨k0, x0⟩ := e
    by_cases hq : q = k0
    · simp [Entries.keys, Entries.get, hq]
    · have ih2 : q ∈ List.map Prod.fst es ↔ (Entries.get es q).isSome = true := ih
      simp [Entries.keys, Entries.get, hq, ih2]

theorem foldl_set_get {α β : Type} (w : α → β) (m : Entries α) (hm : (Entries.keys m).Nodup)
    (acc : Entries β) (q : GoString) :
    Entries.get (m.foldl (fun kv e => Entries.set kv e.1 (w e.2)) acc) q
      = match Entries.get m q with
        | some o => some (w o)
        | none => Entries.get acc q := by
  induction m generalizing acc with
  | nil => simp [Entries.get]
  | cons e m ih =>
    obtain ⟨k0, x0⟩ := e
    simp only [Entries.keys, List.map_cons, List.nodup_cons] at hm
    rw [List.foldl_cons, ih hm.2]
    by_cases hq : q = k0
    · subst hq
      have hn : Entries.get m q = none := Entries.get_eq_none m q hm.1
      simp [Entries.get, hn, Entries.get_set]
    · simp only [Entries.get, hq, if_false]
      cases hg : Entries.get m q with
      | none => simp [Entries.get_set, hq]
      | some o => simp

/-! ## Construction -/

/-- C1: for every name and host value `x`, `NewVariable(name, x)` fails exactly
when the host-to-internal conversion of `x` fails, and then returns that
conversion error (and no Variable); otherwise it returns a Variable whose
`Name()` is `name` and whose `Object()` is the converted value of `x`. -/
theorem NewVariable_spec (conv : HostValue → Except ConversionError Object)
    (name : GoString) (x : HostValue) :
    ((∃ err, NewVariable conv name x = .error err) ↔ ∃ err, conv x = .error err) ∧
    (∀ err, conv x = .error err → NewVariable conv name x = .error err) ∧
    (∀ obj, conv x = .ok obj →
      ∃ v, NewVariable conv name x = .ok v ∧ v.Name = name ∧ v.Object = obj) := by
  unfold NewVariable
  cases h : conv x with
  | error e => simp
  | ok o => simp [Variable.Name, Variable.Object]

theorem NewVariable_spec_witness :
    NewVariable interfaceToObject "f" (.seq [.int 1, .unsupported "func"]) = .error ⟨"func"⟩ ∧
    ∃ v, NewVariable interfaceToObject "n" (.int 3) = .ok v ∧ v.Name = "n" ∧
      v.Object = .Int 3 :=
  ⟨(NewVariable_spec interfaceToObject "f" (.seq [.int 1, .unsupported "func"])).2.1
      ⟨"func"⟩ rfl,
    (NewVariable_spec interfaceToObject "n" (.int 3)).2.2 (.Int 3) rfl⟩

/-! ## Scalar accessors -/

/-- C2: for every Variable and each scalar accessor among `Int`, `Int64`,
`Float`, `Char`, `Bool`, `String` and `Bytes`: when the matching coercion
(`ToInt`, `ToInt64`, `ToFloat64`, `ToRune`, `ToBool`, `ToString`,
`ToByteSlice`) reports success the accessor returns the coerced value, and
when it reports failure the accessor returns the zero value of the target type
(0, 0, 0.0, 0, false, the empty string, nil). The coercions are any functions
of the Go shape `(value, ok)` that leave the value at zero when `ok` is false. -/
theorem scalar_accessors_spec (c : Coercions) (hc : c.ZeroOnFailure) (v : Variable) :
    ((c.ToInt v.value).2 = true → v.Int c = (c.ToInt v.value).1) ∧
    ((c.ToInt v.value).2 = false → v.Int c = 0) ∧
    ((c.ToInt64 v.value).2 = true → v.Int64 c = (c.ToInt64 v.value).1) ∧
    ((c.ToInt64 v.value).2 = false → v.Int64 c = 0) ∧
    ((c.ToFloat64 v.value).2 = true → v.Float c = (c.ToFloat64 v.value).1) ∧
    ((c.ToFloat64 v.value).2 = false → v.Float c = Float64.zero) ∧
    ((c.ToRune v.value).2 = true → v.Char c = (c.ToRune v.value).1) ∧
    ((c.ToRune v.value).2 = false → v.Char c = 0) ∧
    ((c.ToBool v.value).2 = true → v.Bool c = (c.ToBool v.value).1) ∧
    ((c.ToBool v.value).2 = false → v.Bool c = false) ∧
    ((c.ToString v.value).2 = true → v.String c = (c.ToString v.value).1) ∧
    ((c.ToString v.value).2 = false → v.String c = "") ∧
    ((c.ToByteSlice v.value).2 = true → v.Bytes c = (c.ToByteSlice v.value).1) ∧
    ((c.ToByteSlice v.value).2 = false → v.Bytes c = none) := by
  obtain ⟨h1, h2, h3, h4, h5, h6, h7⟩ := hc
  refine ⟨fun _ => rfl, h1 _, fun _ => rfl, h2 _, fun _ => rfl, h3 _, fun _ => rfl, h4 _,
    fun _ => rfl, h5 _, fun _ => rfl, h6 _, fun _ => rfl, h7 _⟩

theorem objects_zeroOnFailure : objects.ZeroOnFailure := by
  refine ⟨?_, ?_, ?_, ?_, ?_, ?_, ?_⟩ <;> intro o <;> cases o <;>
    simp [objects, objects_ToInt, objects_ToInt64, objects_ToFloat64, objects_ToRune,
      objects_ToBool, objects_ToString, objects_ToByteSlice]

theorem scalar_accessors_spec_witness :
    objects.ZeroOnFailure ∧
    Variable.Int objects ⟨"n", .Int 7⟩ = 7 ∧
    Variable.Int objects ⟨"m", .Map []⟩ = 0 ∧
    Variable.String objects ⟨"s", .String "go"⟩ = "go" ∧
    Variable.Bytes objects ⟨"m", .Map []⟩ = none :=
  ⟨objects_zeroOnFailure,
    (scalar_accessors_spec objects objects_zeroOnFailure ⟨"n", .Int 7⟩).1 rfl,
    (scalar_accessors_spec objects objects_zeroOnFailure ⟨"m", .Map []⟩).2.1 rfl,
    (scalar_accessors_spec objects objects_zeroOnFailure
      ⟨"s", .String "go"⟩).2.2.2.2.2.2.2.2.2.2.1 rfl,
    (scalar_accessors_spec objects objects_zeroOnFailure
      ⟨"m", .Map []⟩).2.2.2.2.2.2.2.2.2.2.2.2.2 rfl⟩

/-! ## Composite accessors -/

/-- C3: for every Variable whose internal value is the Array variant with
elements `e_1..e_n`, `Array()` returns a sequence of exactly `n` elements whose
`i`-th element is the widening of `e_i`, in the same order; for every Variable
whose internal value is any other variant, `Array()` returns the nil slice. -/
theorem Array_spec (w : Object → HostValue) (v : Variable) :
    (∀ es : List Object, v.value = .Array es →
      (v.Array w).len = es.length ∧
      (∀ i : Nat, (v.Array w).elems[i]? = (es[i]?).map w) ∧
      (v.Array w).elems = es.map w) ∧
    (v.value.isArray = false → v.Array w = none) := by
  constructor
  · intro es hes
    have hel : (v.Array w).elems = es.map w := by
      have hv : v.Array w = es.foldl (fun arr e => Slice.append arr (w e)) none := by
        simp [Variable.Array, hes]
      rw [hv, foldl_append_elems]
      simp [Slice.elems]
    refine ⟨?_, ?_, hel⟩
    · have hlen : (v.Array w).len = ((v.Array w).elems).length := rfl
      rw [hlen, hel, List.length_map]
    · intro i
      rw [hel, List.getElem?_map]
  · intro h
    obtain ⟨name, value⟩ := v
    cases value <;> simp_all [Variable.Array, Object.isArray]

theorem Array_spec_witness :
    Slice.elems (Variable.Array objectToInterface
        ⟨"arr", .Array [.Int 1, .String "a", .Bool true]⟩)
      = [.int 1, .string "a", .bool true] ∧
    Variable.Array objectToInterface ⟨"s", .String "a"⟩ = none :=
  ⟨((Array_spec objectToInterface ⟨"arr", .Array [.Int 1, .String "a", .Bool true]⟩).1
      [.Int 1, .String "a", .Bool true] rfl).2.2,
    (Array_spec objectToInterface ⟨"s", .String "a"⟩).2 rfl⟩

/-- C4: for every Variable whose internal value is the Map variant (its keys
pairwise distinct, as in any Go map), `Map()` returns a mapping whose key set
is exactly the key set of the internal mapping and whose value at each key `k`
is the widening of the internal value at `k`; for every Variable whose internal
value is any other variant, `Map()` returns the nil map. -/
theorem Map_spec (w : Object → HostValue) (v : Variable) :
    (∀ m, v.value = .Map m → (Entries.keys m).Nodup →
      ∃ kv, v.Map w = some kv ∧
        (∀ k, k ∈ Entries.keys kv ↔ k ∈ Entries.keys m) ∧
        (∀ k, Entries.get kv k = (Entries.get m k).map w)) ∧
    (v.value.isMap = false → v.Map w = none) := by
  constructor
  · intro m hm hnd
    refine ⟨m.foldl (fun kv e => Entries.set kv e.1 (w e.2)) [], ?_, ?_, ?_⟩
    · simp [Variable.Map, hm]
    · intro k
      rw [Entries.mem_keys_iff, Entries.mem_keys_iff, foldl_set_get w m hnd]
      cases Entries.get m k <;> simp [Entries.get]
    · intro k
      rw [foldl_set_get w m hnd]
      cases Entries.get m k <;> simp [Entries.get]
  · intro h
    obtain ⟨name, value⟩ := v
    cases value <;> simp_all [Variable.Map, Object.isMap]

theorem Map_spec_witness :
    (∃ kv, Variable.Map objectToInterface ⟨"m", .Map [("k", .Int 1)]⟩ = some kv ∧
      (∀ k, k ∈ Entries.keys kv ↔ k ∈ Entries.keys [("k", Object.Int 1)]) ∧
      (∀ k, Entries.get kv k = (Entries.get [("k", Object.Int 1)] k).map objectToInterface)) ∧
    Variable.Map objectToInterface ⟨"n", .Int 1⟩ = none :=
  ⟨(Map_spec objectToInterface ⟨"m", .Map [("k", .Int 1)]⟩).1 [("k", .Int 1)] rfl
      (by simp [Entries.keys]),
    (Map_spec objectToInterface ⟨"n", .Int 1⟩).2 rfl⟩

/-- C5: for every Variable, `Error()` returns a non-nil error if and only if
the internal value is the Error variant, and then the error text equals the
message the Error variant carries; for every other variant, zero-valued scalars
and Undefined included, `Error()` returns nil. -/
theorem Error_spec (v : Variable) :
    ((v.Error).isSome = true ↔ v.value.isError = true) ∧
    (∀ message, v.value = .Error message →
      ∃ err, v.Error = some err ∧ err.text = message) ∧
    (v.value.isError = false → v.Error = none) ∧
    (∀ name, Variable.Error ⟨name, .Int 0⟩ = none ∧
      Variable.Error ⟨name, .Float Float64.zero⟩ = none ∧
      Variable.Error ⟨name, .Bool false⟩ = none ∧
      Variable.Error ⟨name, .Char 0⟩ = none ∧
      Variable.Error ⟨name, .String ""⟩ = none ∧
      Variable.Error ⟨name, .Bytes none⟩ = none ∧
      Variable.Error ⟨name, .Undefined⟩ = none) := by
  obtain ⟨name, value⟩ := v
  refine ⟨?_, ?_, ?_, fun _ => ⟨rfl, rfl, rfl, rfl, rfl, rfl, rfl⟩⟩
  · cases value <;> simp [Variable.Error, Object.isError]
  · intro message h
    simp only at h
    subst h
    exact ⟨errors_New message, rfl, rfl⟩
  · cases value <;> simp [Variable.Error, Object.isError]

theorem Error_spec_witness :
    (∃ err, Variable.Error ⟨"e", .Error "boom"⟩ = some err ∧ err.text = "boom") ∧
    Variable.Error ⟨"u", .Undefined⟩ = none :=
  ⟨(Error_spec ⟨"e", .Error "boom"⟩).2.1 "boom" rfl,
    (Error_spec ⟨"u", .Undefined⟩).2.2.1 rfl⟩

/-! ## The undefined sentinel -/

/-- C6: for every Variable (a runtime-specific variant carrying a tag of its
own), `IsUndefined()` is true if and only if `ValueType()` returns the type tag
of the Undefined variant; `IsUndefined()` is false for every other variant,
the integer 0, the empty string and the boolean false included. -/
theorem IsUndefined_spec (v : Variable) (htag : v.value.ownTag = true) :
    (v.IsUndefined = true ↔ v.ValueType = Object.TypeName .Undefined) ∧
    (v.value.isUndefined = false → v.IsUndefined = false) ∧
    (∀ name, Variable.IsUndefined ⟨name, .Int 0⟩ = false ∧
      Variable.IsUndefined ⟨name, .String ""⟩ = false ∧
      Variable.IsUndefined ⟨name, .Bool false⟩ = false) := by
  obtain ⟨name, value⟩ := v
  refine ⟨?_, fun h => h, fun _ => ⟨rfl, rfl, rfl⟩⟩
  cases value <;>
    simp_all [Variable.IsUndefined, Variable.ValueType, Object.isUndefined, Object.TypeName,
      Object.ownTag]

theorem IsUndefined_spec_witness :
    (Variable.IsUndefined ⟨"u", .Undefined⟩ = true ↔
      Variable.ValueType ⟨"u", .Undefined⟩ = Object.TypeName .Undefined) ∧
    (Variable.IsUndefined ⟨"t", .Other "time"⟩ = true ↔
      Variable.ValueType ⟨"t", .Other "time"⟩ = Object.TypeName .Undefined) :=
  ⟨(IsUndefined_spec ⟨"u", .Undefined⟩ rfl).1, (IsUndefined_spec ⟨"t", .Other "time"⟩ rfl).1⟩

/-- C9: `NewVariable("v", nil)` succeeds and `IsUndefined()` of the resulting
Variable is true: the host nil is converted to the Undefined variant. -/
theorem NewVariable_nil_isUndefined :
    ∃ v, NewVariable interfaceToObject "v" .nil = .ok v ∧ v.IsUndefined = true ∧
      v.Object.isUndefined = true :=
  ⟨⟨"v", .Undefined⟩, rfl, rfl, rfl⟩

/-! ## Round trip and mismatched shapes -/

/-- C7: for every host scalar `x` of a convertible type (integer, float,
boolean, rune, string, byte sequence), `NewVariable("v", x)` succeeds and
`Value()` on the resulting Variable returns a host-generic value equal to `x`. -/
theorem Value_roundtrip_scalar (x : HostValue) (hx : x.isScalar = true) :
    ∃ v, NewVariable interfaceToObject "v" x = .ok v ∧ v.Value objectToInterface = x := by
  cases x <;> simp [HostValue.isScalar] at hx
  all_goals exact ⟨_, rfl, rfl⟩

theorem Value_roundtrip_scalar_witness :
    (∃ v, NewVariable interfaceToObject "v" (.int 52) = .ok v ∧
      v.Value objectToInterface = .int 52) ∧
    (∃ v, NewVariable interfaceToObject "v" (.bytes (some [1, 2])) = .ok v ∧
      v.Value objectToInterface = .bytes (some [1, 2])) :=
  ⟨Value_roundtrip_scalar (.int 52) rfl, Value_roundtrip_scalar (.bytes (some [1, 2])) rfl⟩

/-- C8: for every internal variant and every scalar accessor among `Int`,
`Int64`, `Float`, `Char`, `Bool`, `String` and `Bytes` whose shape does not
match the variant (such as `Int()` on a Map or on a String), the accessor
returns the zero value of its shape. -/
theorem scalar_accessor_mismatch (v : Variable) :
    (v.value.isInt = false → v.Int objects = 0) ∧
    (v.value.isInt = false → v.Int64 objects = 0) ∧
    (v.value.isFloat = false → v.Float objects = Float64.zero) ∧
    (v.value.isChar = false → v.Char objects = 0) ∧
    (v.value.isBool = false → v.Bool objects = false) ∧
    (v.value.isString = false → v.String objects = "") ∧
    (v.value.isBytes = false → v.Bytes objects = none) := by
  obtain ⟨name, value⟩ := v
  refine ⟨?_, ?_, ?_, ?_, ?_, ?_, ?_⟩ <;> intro h <;> cases value <;>
    first
      | rfl
      | (simp [Object.isInt, Object.isFloat, Object.isChar, Object.isBool, Object.isString,
          Object.isBytes] at h)

theorem scalar_accessor_mismatch_witness :
    Variable.Int objects ⟨"m", .Map [("k", .Int 1)]⟩ = 0 ∧
    Variable.Int objects ⟨"s", .String "12"⟩ = 0 ∧
    Variable.String objects ⟨"n", .Int 12⟩ = "" ∧
    Variable.Bytes objects ⟨"a", .Array [.Int 1]⟩ = none :=
  ⟨(scalar_accessor_mismatch ⟨"m", .Map [("k", .Int 1)]⟩).1 rfl,
    (scalar_accessor_mismatch ⟨"s", .String "12"⟩).1 rfl,
    (scalar_accessor_mismatch ⟨"n", .Int 12⟩).2.2.2.2.2.1 rfl,
    (scalar_accessor_mismatch ⟨"a", .Array [.Int 1]⟩).2.2.2.2.2.2 rfl⟩

/-! ## Empty composites -/

/-- C10: `Array()` on an Array variant with zero elements returns the nil
slice, as on a non-Array variant, so `Array()` is non-nil if and only if the
value is an Array with at least one element; `Map()` on a Map variant with zero
entries returns a non-nil empty map, so `Map()` is non-nil if and only if the
value is a Map variant. -/
theorem Array_Map_empty (w : Object → HostValue) (v : Variable) :
    (∀ name, Variable.Array w ⟨name, .Array []⟩ = none) ∧
    ((v.Array w).isSome = true ↔ ∃ e es, v.value = .Array (e :: es)) ∧
    (∀ name, Variable.Map w ⟨name, .Map []⟩ = some []) ∧
    ((v.Map w).isSome = true ↔ v.value.isMap = true) := by
  obtain ⟨name, value⟩ := v
  refine ⟨fun _ => rfl, ?_, fun _ => rfl, ?_⟩
  · cases value with
    | Array es =>
      cases es with
      | nil => simp [Variable.Array]
      | cons e es =>
        have h : (Variable.Array w ⟨name, .Array (e :: es)⟩).isSome = true := by
          show (List.foldl _ none (e :: es)).isSome = true
          rw [foldl_append_isSome]
          rfl
        simp [h]
    | _ => simp [Variable.Array]
  · cases value <;> simp [Variable.Map, Object.isMap]

end Tengo
